import Mathlib

/-!
Verification of the peerdb-search document-delivery pipeline and property
bootstrap against its natural-language specification.

The Go source is embedded shallowly:

* bytes are `Nat` values (< 256 where it matters), byte strings `List Nat`;
* `crypto/sha256` and `encoding/base64.RawURLEncoding` are implemented as
  pure functions over byte lists;
* HTTP handlers become pure functions from a parsed request and an explicit
  backend (the external index engine) to a response value plus the number of
  backend calls made;
* the process-wide `KnownProperties` map becomes an association list with
  overwrite-on-insert semantics;
* the external compression codecs (brotli/gzip/deflate) are parameters of
  the model, mirroring that the code delegates to external libraries.
-/

set_option maxRecDepth 100000

namespace PeerDB

/-! ## Byte-level primitives: SHA-256, base64url, UTF-8 -/

/-- 32-bit wrap-around addition. -/
def add32 (a b : Nat) : Nat := (a + b) % 4294967296

/-- Rotate a 32-bit word right by `n` bits. -/
def rotr32 (n x : Nat) : Nat :=
  Nat.lor (x >>> n) ((x <<< (32 - n)) % 4294967296)

/-- Bitwise complement of a 32-bit word. -/
def not32 (x : Nat) : Nat := Nat.xor x 4294967295

/-- SHA-256 small sigma 0. -/
def sigmaSmall0 (x : Nat) : Nat := Nat.xor (Nat.xor (rotr32 7 x) (rotr32 18 x)) (x >>> 3)

/-- SHA-256 small sigma 1. -/
def sigmaSmall1 (x : Nat) : Nat := Nat.xor (Nat.xor (rotr32 17 x) (rotr32 19 x)) (x >>> 10)

/-- SHA-256 big sigma 0. -/
def sigmaBig0 (x : Nat) : Nat := Nat.xor (Nat.xor (rotr32 2 x) (rotr32 13 x)) (rotr32 22 x)

/-- SHA-256 big sigma 1. -/
def sigmaBig1 (x : Nat) : Nat := Nat.xor (Nat.xor (rotr32 6 x) (rotr32 11 x)) (rotr32 25 x)

/-- SHA-256 choice function. -/
def sha256Ch (e f g : Nat) : Nat := Nat.xor (Nat.land e f) (Nat.land (not32 e) g)

/-- SHA-256 majority function. -/
def sha256Maj (a b c : Nat) : Nat :=
  Nat.xor (Nat.xor (Nat.land a b) (Nat.land a c)) (Nat.land b c)

/-- The 64 SHA-256 round constants (FIPS 180-4 section 4.2.2, in decimal). -/
def sha256K : List Nat :=
  [1116352408, 1899447441, 3049323471, 3921009573, 961987163, 1508970993,
   2453635748, 2870763221, 3624381080, 310598401, 607225278, 1426881987,
   1925078388, 2162078206, 2614888103, 3248222580, 3835390401, 4022224774,
   264347078, 604807628, 770255983, 1249150122, 1555081692, 1996064986,
   2554220882, 2821834349, 2952996808, 3210313671, 3336571891, 3584528711,
   113926993, 338241895, 666307205, 773529912, 1294757372, 1396182291,
   1695183700, 1986661051, 2177026350, 2456956037, 2730485921, 2820302411,
   3259730800, 3345764771, 3516065817, 3600352804, 4094571909, 275423344,
   430227734, 506948616, 659060556, 883997877, 958139571, 1322822218,
   1537002063, 1747873779, 1955562222, 2024104815, 2227730452, 2361852424,
   2428436474, 2756734187, 3204031479, 3329325298]

/-- Running state of a SHA-256 computation: eight 32-bit words. -/
structure Hash8 where
  a : Nat
  b : Nat
  c : Nat
  d : Nat
  e : Nat
  f : Nat
  g : Nat
  h : Nat
deriving DecidableEq

/-- SHA-256 initial hash value (FIPS 180-4 section 5.3.3, in decimal). -/
def sha256H0 : Hash8 :=
  ⟨1779033703, 3144134277, 1013904242, 2773480762,
   1359893119, 2600822924, 528734635, 1541459225⟩

/-- One SHA-256 compression round; `wk` is the pair (message word, round constant). -/
def sha256Round (s : Hash8) (wk : Nat × Nat) : Hash8 :=
  let t1 := add32 (add32 (add32 s.h (sigmaBig1 s.e)) (add32 (sha256Ch s.e s.f s.g) wk.2)) wk.1
  let t2 := add32 (sigmaBig0 s.a) (sha256Maj s.a s.b s.c)
  ⟨add32 t1 t2, s.a, s.b, s.c, add32 s.d t1, s.e, s.f, s.g⟩

/-- Extend 16 message words to the 64-entry SHA-256 message schedule. -/
def sha256Schedule (w16 : List Nat) : List Nat :=
  (List.range 48).foldl
    (fun w _ =>
      let t := w.length
      w ++ [add32 (add32 (sigmaSmall1 (w.getD (t - 2) 0)) (w.getD (t - 7) 0))
                  (add32 (sigmaSmall0 (w.getD (t - 15) 0)) (w.getD (t - 16) 0))])
    w16

/-- Big-endian word assembly of up to 4 bytes. -/
def bytesToWord (l : List Nat) : Nat := l.foldl (fun acc x => acc * 256 + x) 0

/-- Group a byte list into big-endian 32-bit words (structural recursion so
the kernel can evaluate digests inside proofs). -/
def bytesToWords : List Nat → List Nat
  | [] => []
  | [a] => [bytesToWord [a]]
  | [a, b] => [bytesToWord [a, b]]
  | [a, b, c] => [bytesToWord [a, b, c]]
  | a :: b :: c :: d :: rest => bytesToWord [a, b, c, d] :: bytesToWords rest

/-- Process one 512-bit block given as 16 words. -/
def sha256Block (hv : Hash8) (w16 : List Nat) : Hash8 :=
  let w := sha256Schedule w16
  let s := (w.zip sha256K).foldl sha256Round hv
  ⟨add32 hv.a s.a, add32 hv.b s.b, add32 hv.c s.c, add32 hv.d s.d,
   add32 hv.e s.e, add32 hv.f s.f, add32 hv.g s.g, add32 hv.h s.h⟩

/-- Fold the compression function over consecutive 64-byte blocks. The
`fuel` argument (always instantiated at the padded length, an upper bound on
the number of blocks) makes the recursion structural so the kernel can
evaluate digests inside proofs. -/
def sha256BlocksFuel : Nat → Hash8 → List Nat → Hash8
  | 0, hv, _ => hv
  | _ + 1, hv, [] => hv
  | fuel + 1, hv, l => sha256BlocksFuel fuel (sha256Block hv (bytesToWords (l.take 64))) (l.drop 64)

/-- Fold the compression function over consecutive 64-byte blocks. -/
def sha256Blocks (hv : Hash8) (l : List Nat) : Hash8 :=
  sha256BlocksFuel l.length hv l

/-- Big-endian 8-byte encoding of a number (used for the length suffix). -/
def beBytes8 (n : Nat) : List Nat :=
  [n / 2 ^ 56 % 256, n / 2 ^ 48 % 256, n / 2 ^ 40 % 256, n / 2 ^ 32 % 256,
   n / 2 ^ 24 % 256, n / 2 ^ 16 % 256, n / 2 ^ 8 % 256, n % 256]

/-- SHA-256 padding of a message. -/
def sha256Pad (m : List Nat) : List Nat :=
  m ++ [128] ++ List.replicate ((64 - (m.length + 9) % 64) % 64) 0 ++ beBytes8 (8 * m.length)

/-- Big-endian 4-byte decomposition of a 32-bit word. -/
def wordToBytes (w : Nat) : List Nat :=
  [w / 2 ^ 24 % 256, w / 2 ^ 16 % 256, w / 2 ^ 8 % 256, w % 256]

/-- SHA-256 digest of a byte list, as a list of 32 bytes.
Embeds Go `crypto/sha256.Sum256` (FIPS 180-4). -/
def sha256Bytes (m : List Nat) : List Nat :=
  let hv := sha256Blocks sha256H0 (sha256Pad m)
  (([hv.a, hv.b, hv.c, hv.d, hv.e, hv.f, hv.g, hv.h]).map wordToBytes).flatten

/-- The URL-safe base64 alphabet (RFC 4648 section 5). -/
def base64urlAlphabet : List Char :=
  "ABCDEFGHIJKLMNOPQRSTUVWXYZabcdefghijklmnopqrstuvwxyz0123456789-_".data

/-- Character for a 6-bit group. -/
def b64Char (n : Nat) : Char := base64urlAlphabet.getD n 'A'

/-- Unpadded URL-safe base64 of a byte list, as characters.
Embeds Go `encoding/base64.RawURLEncoding.EncodeToString`. -/
def base64urlChars : List Nat → List Char
  | [] => []
  | [b1] => [b64Char (b1 / 4), b64Char (b1 % 4 * 16)]
  | [b1, b2] => [b64Char (b1 / 4), b64Char (b1 % 4 * 16 + b2 / 16), b64Char (b2 % 16 * 4)]
  | b1 :: b2 :: b3 :: rest =>
    b64Char (b1 / 4) :: b64Char (b1 % 4 * 16 + b2 / 16) ::
    b64Char (b2 % 16 * 4 + b3 / 64) :: b64Char (b3 % 64) :: base64urlChars rest

/-- Unpadded URL-safe base64 of a byte list, as a string. -/
def base64urlEncode (l : List Nat) : String := String.mk (base64urlChars l)

/-- UTF-8 encoding of one character. -/
def charUtf8 (c : Char) : List Nat :=
  let n := c.toNat
  if n < 128 then [n]
  else if n < 2048 then [192 + n / 64, 128 + n % 64]
  else if n < 65536 then [224 + n / 4096, 128 + n / 64 % 64, 128 + n % 64]
  else [240 + n / 262144, 128 + n / 4096 % 64, 128 + n / 64 % 64, 128 + n % 64]

/-- UTF-8 bytes of a string (Go `[]byte(s)`). -/
def utf8Bytes (s : String) : List Nat := (s.data.map charUtf8).flatten

/-! ## Compression constants and content-encoding negotiation (src/utils.go) -/

/-- src/utils.go:36. -/
def compressionBrotli : String := "br"

/-- src/utils.go:37. -/
def compressionGzip : String := "gzip"

/-- src/utils.go:38. -/
def compressionDeflate : String := "deflate"

/-- src/utils.go:39. -/
def compressionIdentity : String := "identity"

/-- Compress only if content is larger than 1 KB (src/utils.go:42). -/
def minCompressionSize : Nat := 1024

/-- src/utils.go:49. -/
def allCompressions : List String :=
  [compressionBrotli, compressionGzip, compressionDeflate, compressionIdentity]

/-- A parsed `Accept-Encoding` element: coding name and quality value.
The quality is scaled by 1000 (HTTP q-values carry at most three decimals),
mirroring the `header.AcceptSpec` values that `header.ParseAccept` produces. -/
abbrev AcceptSpec : Type := String × Nat

/-- Content-encoding negotiation, embedding
`github.com/golang/gddo/httputil.NegotiateContentEncoding`: the best offer is
the client spec with the highest quality matching an offer (earlier offers win
ties), starting from `("identity", q = -1)`; a best quality of exactly 0 means
nothing is acceptable and yields `""`. -/
def NegotiateContentEncoding (specs : List (String × Nat)) (offers : List String) : String :=
  let best := offers.foldl
    (fun (acc : String × Int) offer =>
      specs.foldl
        (fun (acc2 : String × Int) spec =>
          if (spec.2 : Int) > acc2.2 ∧ (spec.1 = "*" ∨ spec.1 = offer) then (offer, (spec.2 : Int))
          else acc2)
        acc)
    (compressionIdentity, (-1 : Int))
  if best.2 = 0 then "" else best.1

/-! ## writeJSON (src/utils.go:215-279) -/

/-- The external compression codecs the code streams data through
(`github.com/andybalholm/brotli`, `compress/gzip`, `compress/flate`).
They are external collaborators of this repository, so the model takes them
as parameters: each maps the input bytes to the encoded bytes. -/
structure Codecs where
  brotli : List Nat → List Nat
  gzip : List Nat → List Nat
  deflate : List Nat → List Nat

/-- Embeds `compress` (src/utils.go:169-213): dispatch on the encoding name,
identity is a no-op, an unknown encoding is an error. In-memory codec writes
cannot fail, so the write/close error propagation collapses to success. -/
def compress (codecs : Codecs) (compression : String) (data : List Nat) :
    Except String (List Nat) :=
  if compression = compressionBrotli then .ok (codecs.brotli data)
  else if compression = compressionGzip then .ok (codecs.gzip data)
  else if compression = compressionDeflate then .ok (codecs.deflate data)
  else if compression = compressionIdentity then .ok data
  else .error ("unknown compression: " ++ compression)

/-- Characters Go `net/textproto` accepts in a header token
(`validHeaderFieldByte`). -/
def isTokenChar (c : Char) : Bool :=
  c.isAlphanum ||
    [33, 35, 36, 37, 38, 39, 42, 43, 45, 46, 94, 95, 96, 124, 126].contains c.toNat

/-- Canonicalization loop of `textproto.CanonicalMIMEHeaderKey`: uppercase the
first letter of each dash-separated token, lowercase the rest. -/
def canonChars (upper : Bool) : List Char → List Char
  | [] => []
  | c :: cs =>
    let c2 := if upper then c.toUpper else c.toLower
    c2 :: canonChars (c2 = '-') cs

/-- Embeds Go `textproto.CanonicalMIMEHeaderKey`: keys holding a character
that is not a valid token character are returned unchanged. -/
def canonicalMIMEHeaderKey (s : String) : String :=
  if s.data.all isTokenChar then String.mk (canonChars true s.data) else s

/-- The ETag computed by `writeJSON` (src/utils.go:243-254): a SHA-256 digest
over the encoded body bytes followed by each metadata header name and every
value, byte-appended into the same digest with no delimiters, then
base64url-encoded and wrapped in double quotes. -/
def metadataBytes (metadata : List (String × List String)) : List Nat :=
  (metadata.map (fun kv => utf8Bytes kv.1 ++ (kv.2.map utf8Bytes).flatten)).flatten

/-- Quote an ETag value (src/utils.go:254). -/
def quoteETag (s : String) : String := "\"" ++ s ++ "\""

/-- ETag of `writeJSON` for encoded bytes `data` and metadata `metadata`. -/
def etagFor (data : List Nat) (metadata : List (String × List String)) : String :=
  quoteETag (base64urlEncode (sha256Bytes (data ++ metadataBytes metadata)))

/-- The response headers and body produced by `writeJSON`, or a 500. -/
inductive WriteJSONResult where
  | internalServerError
  | ok (contentType : String) (contentEncoding : Option String)
      (contentLength : Option String) (etag : String)
      (metadataHeaders : List (String × List String)) (body : List Nat)
deriving DecidableEq

/-- Embeds `Service.writeJSON` (src/utils.go:215-279). The `encoded` argument
is the marshalled payload (`x.MarshalWithoutEscapeHTML(data)`); marshalling
itself happens through Go reflection and is outside the model, so the
marshalling-error 500 branch is elided. Metadata values are an ordered list of
key/values pairs (Go iterates the header map). Steps: force identity below the
compression threshold, compress, digest body plus metadata into the ETag, set
headers (metadata keys get the lowercase `"peerdb-"` prefix and MIME
canonicalization), with `Content-Encoding` only for non-identity and
`Content-Length` only for identity. -/
def writeJSON (codecs : Codecs) (contentEncoding : String) (encoded : List Nat)
    (metadata : List (String × List String)) : WriteJSONResult :=
  let ce := if encoded.length ≤ minCompressionSize then compressionIdentity else contentEncoding
  match compress codecs ce encoded with
  | .error _ => .internalServerError
  | .ok data =>
    .ok "application/json"
      (if ce ≠ compressionIdentity then some ce else none)
      (if ce ≠ compressionIdentity then none else some (toString data.length))
      (etagFor data metadata)
      (metadata.map (fun kv => (canonicalMIMEHeaderKey ("peerdb-" ++ kv.1), kv.2)))
      data

/-- The ETag header of a `writeJSON` result, if any. -/
def resultEtag : WriteJSONResult → Option String
  | .internalServerError => none
  | .ok _ _ _ etag _ _ => some etag

/-! ## Identifier validity

`identifier.Valid` lives in the repository package
`gitlab.com/peerdb/search/identifier`, whose source is not under `src/`. -/

/-- Modelled from the spec: `identifier.Valid(string) → bool` — a syntactic
check that the string is a fixed-length (here 22 characters), URL-safe
(alphanumeric) encoded identifier, "without decoding its semantic meaning"
(spec 4.1, 6: "Identifier string format: fixed-length, URL-safe; any string
failing this shape is rejected"). -/
def identifierValid (s : String) : Bool :=
  s.length = 22 && s.data.all (fun c => c.isAlphanum)

/-! ## Document GET handlers (src/internal/cli/cli.go:497-624) -/

/-- Outcome of the external engine call `GET /docs/_source/{id}`:
a distinguished not-found, any other failure, or a success carrying the body
and the response headers the handler reads (`Content-Type`,
`Content-Length`). -/
inductive ESResult where
  | notFound
  | failure
  | success (body : List Nat) (contentType : String) (contentLength : String)
deriving DecidableEq

/-- The external index engine as seen by the JSON handler: a function from
the document id and the forwarded `Accept-Encoding` header value to a
result. -/
abbrev ESBackend : Type := String → String → ESResult

/-- Response of the JSON document handler. -/
inductive JSONResponse where
  | notAcceptable
  | badRequest
  | notFound
  | internalServerError
  | ok (contentType : String) (contentEncoding : Option String)
      (contentLength : Option String) (etag : String) (body : List Nat)
deriving DecidableEq

/-- HTTP status code of a `JSONResponse`. -/
def jsonStatus : JSONResponse → Nat
  | .notAcceptable => 406
  | .badRequest => 400
  | .notFound => 404
  | .internalServerError => 500
  | .ok _ _ _ _ _ => 200

/-- A JSON document request: the parsed `Accept-Encoding` header and the
`{id}` path parameter. -/
structure JSONRequest where
  acceptEncoding : List (String × Nat)
  id : String

/-- A handler outcome: the response written plus how many calls were issued
to the external index engine. -/
structure JSONHandlerResult where
  response : JSONResponse
  backendCalls : Nat
deriving DecidableEq

/-- Embeds `Service.DocumentGetGetJSON` (src/internal/cli/cli.go:568-624):
negotiate a content encoding against gzip/deflate/identity (406 when the
negotiation yields nothing), validate the id (400), fetch
`/docs/_source/{id}` from the engine forwarding the negotiated encoding
(404/500 on engine not-found/failure), hash the returned body with SHA-256
into a base64url strong ETag, and answer 200 with `Content-Encoding` for a
non-identity encoding or `Content-Length` for identity. -/
def DocumentGetGetJSON (req : JSONRequest) (es : ESBackend) : JSONHandlerResult :=
  let contentEncoding :=
    NegotiateContentEncoding req.acceptEncoding
      [compressionGzip, compressionDeflate, compressionIdentity]
  if contentEncoding = "" then ⟨.notAcceptable, 0⟩
  else if ¬ identifierValid req.id then ⟨.badRequest, 0⟩
  else
    match es req.id contentEncoding with
    | .notFound => ⟨.notFound, 1⟩
    | .failure => ⟨.internalServerError, 1⟩
    | .success body ct cl =>
      let etag := quoteETag (base64urlEncode (sha256Bytes body))
      ⟨.ok ct
        (if contentEncoding ≠ compressionIdentity then some contentEncoding else none)
        (if contentEncoding ≠ compressionIdentity then none else some cl)
        etag body, 1⟩

/-- Outcome of the existence check `HEAD /docs/_doc/{id}`. -/
inductive ESHeadResult where
  | notFound
  | failure
  | ok
deriving DecidableEq

/-- Response of the HTML document handler. Serving the single-page
application shell (`staticFile` for `/index.html`) and the development
reverse proxy are collapsed to markers: no claim inspects their bodies. -/
inductive HTMLResponse where
  | badRequest
  | seeOther (location : String)
  | notFound
  | internalServerError
  | spaShell
  | proxy
deriving DecidableEq

/-- An HTML document request: the `{id}` path parameter and whether the
parsed form carries the search-session parameter `s` or the free-text query
parameter `q`. -/
structure HTMLRequest where
  id : String
  hasS : Bool
  hasQ : Bool

/-- Embeds `Service.DocumentGetGetHTML` (src/internal/cli/cli.go:497-564).
`getSearchFn` stands for `getSearch(req.Form)` (repository code outside
`src/`, an external collaborator here): `none` models a nil search state,
`some sid` a search state with ID `sid`. `pathFn id s?` stands for
`s.path("DocumentGet", {id}, s?)`. `development` selects the reverse-proxy
mode. The handler validates the id (400), canonicalizes `s`/`q` parameters
through 303 redirects, then issues the existence check and serves the
shell. -/
def DocumentGetGetHTML (req : HTMLRequest) (getSearchFn : HTMLRequest → Option String)
    (pathFn : String → Option String → Except Unit String)
    (esHead : String → ESHeadResult) (development : Bool) :
    HTMLResponse × Nat :=
  if ¬ identifierValid req.id then (.badRequest, 0)
  else
    let afterSearch : HTMLResponse × Nat :=
      match esHead req.id with
      | .notFound => (.notFound, 1)
      | .failure => (.internalServerError, 1)
      | .ok => (if development then .proxy else .spaShell, 1)
    if req.hasS || req.hasQ then
      match getSearchFn req with
      | none =>
        match pathFn req.id none with
        | .error _ => (.internalServerError, 0)
        | .ok p => (.seeOther p, 0)
      | some sid =>
        if req.hasQ then
          match pathFn req.id (some sid) with
          | .error _ => (.internalServerError, 0)
          | .ok p => (.seeOther p, 0)
        else afterSearch
    else afterSearch

/-! ## Certificate manager (src/cmd/search/manager.go) -/

/-- Embeds `CertificateManager.reloadCertificate`
(src/cmd/search/manager.go:49-58). The state is the `certificate` field (a
pointer, `none` before the first load); `load` is the outcome of
`tls.LoadX509KeyPair(c.CertFile, c.KeyFile)`. On a load error the function
returns the error before touching the stored certificate; only after a
successful load is the field assigned (in the source, under the write
lock). -/
def reloadCertificate {Cert : Type} (load : Except String Cert) (certificate : Option Cert) :
    Option Cert × Option String :=
  match load with
  | .error e => (certificate, some e)
  | .ok c => (some c, none)

/-- Embeds `CertificateManager.GetCertificate`
(src/cmd/search/manager.go:65-69): returns the stored certificate (in the
source, under the read lock). -/
def GetCertificate {Cert : Type} (certificate : Option Cert) : Option Cert :=
  certificate

/-! ## Claim/document data model

The type declarations (`Document`, `CoreClaim`, `DocumentReference`, ...)
live in repository code outside `src/`; the shapes below are modelled from
the specification's data model (spec section 3) restricted to the fields
that `src/properties.go` and `GetStandardPropertyReference` actually touch:
claim-type buckets other than `Text` and `Relation` stay empty during the
bootstrap and are omitted, as are the optional one-level meta claims, which
the bootstrap never sets. Languages-to-string maps (`Name`,
`TranslatablePlainString`, `TranslatableHTMLString`) become ordered pairs
lists (the source only ever stores the single key `"en"`). Scores are exact
rationals: only the literal values 0.0 and 1.0 occur. -/

/-- A per-language name map. -/
abbrev Name : Type := List (String × String)

/-- A lightweight pointer to another document (spec section 3). -/
structure DocumentReference where
  ID : String
  Name : Name
  Score : ℚ
  Scores : List (String × ℚ)
deriving DecidableEq

/-- Identifier and confidence shared by every claim variant. -/
structure CoreClaim where
  ID : String
  Confidence : ℚ
deriving DecidableEq

/-- A Text claim: language-keyed plain and HTML strings. -/
structure TextClaim where
  Core : CoreClaim
  «Prop» : DocumentReference
  Plain : List (String × String)
  HTML : List (String × String)
deriving DecidableEq

/-- A Relation claim: property → target document reference. -/
structure RelationClaim where
  Core : CoreClaim
  «Prop» : DocumentReference
  To : DocumentReference
deriving DecidableEq

/-- The claim-type buckets the bootstrap populates. -/
structure SimpleClaimTypes where
  Text : List TextClaim
  Relation : List RelationClaim
deriving DecidableEq

/-- The "Active" claim set of a document. -/
structure DocumentClaimTypes where
  Simple : SimpleClaimTypes
deriving DecidableEq

/-- A document: identifier, names, scores, mnemonic (set only for
system-defined documents) and the active claim set (a pointer in the
source, hence optional). -/
structure Document where
  ID : String
  Name : Name
  Score : ℚ
  Scores : List (String × ℚ)
  Mnemonic : String
  Active : Option DocumentClaimTypes
deriving DecidableEq

/-! ## Property bootstrap (src/properties.go) -/

/-- The fixed, hand-curated list of recognized claim-type names
(src/properties.go:17-40). -/
def claimTypes : List String :=
  ["identifier", "reference",
   "text", "string", "label", "amount", "amount range", "enumeration", "relation",
   "time", "time range", "duration", "duration range",
   "file", "list"]

/-- One entry of the declarative built-in property list. -/
structure BuiltinProperty where
  Name : String
  DescriptionPlain : String
  DescriptionHTML : String
  Is : List String

/-- The built-in property list (src/properties.go:42-108), transcribed
verbatim. -/
def builtinProperties : List BuiltinProperty :=
  [⟨"is",
    "unspecified type relation between two entities",
    "unspecified type relation between two entities",
    []⟩,
   ⟨"property",
    "the entity is a property",
    "the entity is a property",
    []⟩,
   ⟨"item",
    "the entity is an item",
    "the entity is an item",
    []⟩,
   ⟨"claim type",
    "the property maps to a supported claim type",
    "the property maps to a supported claim type",
    []⟩,
   ⟨"description",
    "description",
    "description",
    ["\"text\" claim type"]⟩,
   ⟨"Wikidata property id",
    "Wikidata property identifier",
    "<a href=\"https://www.wikidata.org/wiki/Wikidata:Main_Page\">Wikidata</a> property <a href=\"https://www.wikidata.org/wiki/Wikidata:Identifiers\">identifier</a>",
    ["\"identifier\" claim type"]⟩,
   ⟨"Wikidata item id",
    "Wikidata item identifier",
    "<a href=\"https://www.wikidata.org/wiki/Wikidata:Main_Page\">Wikidata</a> item <a href=\"https://www.wikidata.org/wiki/Wikidata:Identifiers\">identifier</a>",
    ["\"identifier\" claim type"]⟩,
   ⟨"Wikidata property page",
    "Wikidata property page",
    "<a href=\"https://www.wikidata.org/wiki/Wikidata:Main_Page\">Wikidata</a> property page IRI",
    ["\"reference\" claim type"]⟩,
   ⟨"Wikidata item page",
    "Wikidata item page",
    "<a href=\"https://www.wikidata.org/wiki/Wikidata:Main_Page\">Wikidata</a> item page IRI",
    ["\"reference\" claim type"]⟩,
   ⟨"English Wikipedia article",
    "reference to English Wikipedia article",
    "reference to <a href=\"https://en.wikipedia.org/wiki/Main_Page\">English Wikipedia</a> article",
    ["\"reference\" claim type"]⟩]

/-- Embeds `getMnemonic` (src/properties.go:129-131): uppercase, spaces to
underscores, double quotes stripped — character by character, which agrees
with the sequence of `strings` calls on these ASCII names. -/
def getMnemonic (data : String) : String :=
  String.mk (data.data.filterMap (fun c =>
    let u := c.toUpper
    if u = ' ' then some (Char.ofNat 95)
    else if u = Char.ofNat 34 then none
    else some u))

/-- Modelled from the spec: `getPropertyID` composes
`identifier.FromUUID (uuid.NewSHA1 NameSpaceStandardProperties mnemonic)`;
both `identifier.FromUUID` (repository code outside `src/`) and the SHA-1
name-based UUID live outside `src/`. Per spec sections 3, 4.1 and 8 the
derivation is a pure deterministic function of the mnemonic within the fixed
namespace, and distinct inputs yield distinct identifiers ("collision
resistance is out of scope to prove, but equality must be
exact-reproducible"), so it is modelled as an injective deterministic
encoding of the mnemonic. -/
def getPropertyID (mnemonic : String) : String :=
  "ID-" ++ mnemonic

/-- Modelled from the spec: `getPropertyClaimID` chains the namespaced hash
as `Derive(Derive(Derive(ns, propertyMnemonic), claimMnemonic), i)`
(spec section 4.2, step 1); modelled, like `getPropertyID`, as a
deterministic encoding of the derivation chain. -/
def getPropertyClaimID (propertyMnemonic claimMnemonic : String) (i : Nat) : String :=
  "CID-" ++ propertyMnemonic ++ "/" ++ claimMnemonic ++ "/" ++ toString i

/-- The process-wide `KnownProperties` map, modelled as an association list
(no duplicate keys arise: inserting an existing key overwrites it in
place). -/
abbrev KnownPropertiesTable : Type := List (String × Document)

/-- Go map insert: overwrite the entry in place when the key exists,
otherwise add it. -/
def tableInsert (t : KnownPropertiesTable) (k : String) (v : Document) : KnownPropertiesTable :=
  if t.any (fun e => e.1 = k) then t.map (fun e => if e.1 = k then (k, v) else e)
  else t ++ [(k, v)]

/-- Go map read-modify through the `Active` pointer: apply `f` to the entry
stored at `k`. -/
def tableModify (t : KnownPropertiesTable) (k : String) (f : Document → Document) :
    KnownPropertiesTable :=
  t.map (fun e => if e.1 = k then (e.1, f e.2) else e)

/-- Go map lookup. -/
def tableGet : KnownPropertiesTable → String → Option Document
  | [], _ => none
  | e :: rest, k => if e.1 = k then some e.2 else tableGet rest k

/-- The `DocumentReference` to the well-known "description" property used as
`Prop` of every bootstrap Text claim (src/properties.go:173-179). -/
def descriptionRef : DocumentReference :=
  ⟨getPropertyID "DESCRIPTION", [("en", "description")], 0, []⟩

/-- The `DocumentReference` to the well-known "is" property
(src/properties.go:194-200). -/
def isRef : DocumentReference :=
  ⟨getPropertyID "IS", [("en", "is")], 0, []⟩

/-- The `DocumentReference` to the well-known "property" document
(src/properties.go:201-207). -/
def propertyRef : DocumentReference :=
  ⟨getPropertyID "PROPERTY", [("en", "property")], 0, []⟩

/-- The `DocumentReference` to the well-known "claim type" document
(src/properties.go:309-315). -/
def claimTypeRef : DocumentReference :=
  ⟨getPropertyID "CLAIM_TYPE", [("en", "claim type")], 0, []⟩

/-- The document literal stored for one built-in property
(src/properties.go:156-212): a Text claim for its description (confidence
1.0, `Prop` = description) and a Relation claim `is → property` (confidence
1.0). -/
def builtinPropertyDoc (bp : BuiltinProperty) (mnemonic id : String) : Document :=
  { ID := id
    Name := [("en", bp.Name)]
    Score := 0
    Scores := []
    Mnemonic := mnemonic
    Active := some
      { Simple :=
        { Text :=
            [{ Core := ⟨getPropertyClaimID mnemonic "DESCRIPTION" 0, 1⟩
               «Prop» := descriptionRef
               Plain := [("en", bp.DescriptionPlain)]
               HTML := [("en", bp.DescriptionHTML)] }]
          Relation :=
            [{ Core := ⟨getPropertyClaimID mnemonic "PROPERTY" 0, 1⟩
               «Prop» := isRef
               To := propertyRef }] } } }

/-- The extra `is` Relation claim appended for a declared relation of a
built-in property (src/properties.go:215-237). -/
def extraIsClaim (mnemonic isClaimMnemonic isClaim : String) : RelationClaim :=
  { Core := ⟨getPropertyClaimID mnemonic isClaimMnemonic 0, 1⟩
    «Prop» := isRef
    To := ⟨getPropertyID isClaimMnemonic, [("en", isClaim)], 0, []⟩ }

/-- Append a Relation claim through the `Active` pointer of a stored
document (src/properties.go:214-236, `simple.Relation = append(...)`). -/
def appendRelation (rc : RelationClaim) (d : Document) : Document :=
  { d with Active := d.Active.map (fun a =>
      { a with Simple := { a.Simple with Relation := a.Simple.Relation ++ [rc] } }) }

/-- Go `html.EscapeString` on one character. -/
def htmlEscapeChar (c : Char) : List Char :=
  if c = '&' then "&amp;".data
  else if c = Char.ofNat 39 then "&#39;".data
  else if c = '<' then "&lt;".data
  else if c = '>' then "&gt;".data
  else if c = Char.ofNat 34 then "&#34;".data
  else [c]

/-- Embeds Go `html.EscapeString`. -/
def htmlEscapeString (s : String) : String :=
  String.mk (s.data.map htmlEscapeChar).flatten

/-- The marker document synthesized for one recognized claim type
(src/properties.go:239-321): named `"<type>" claim type`, with an
auto-generated description Text claim and Relation claims `is → property`
and `is → "claim type"`. -/
def claimTypeDoc (claimType : String) : Document :=
  let name := "\"" ++ claimType ++ "\" claim type"
  let mnemonic := getMnemonic name
  let id := getPropertyID mnemonic
  let description := "the property is useful with the \"" ++ claimType ++ "\" claim type"
  { ID := id
    Name := [("en", name)]
    Score := 0
    Scores := []
    Mnemonic := mnemonic
    Active := some
      { Simple :=
        { Text :=
            [{ Core := ⟨getPropertyClaimID mnemonic "DESCRIPTION" 0, 1⟩
               «Prop» := descriptionRef
               Plain := [("en", description)]
               HTML := [("en", htmlEscapeString description)] }]
          Relation :=
            [{ Core := ⟨getPropertyClaimID mnemonic "PROPERTY" 0, 1⟩
               «Prop» := isRef
               To := propertyRef },
             { Core := ⟨getPropertyClaimID mnemonic "CLAIM_TYPE" 0, 1⟩
               «Prop» := isRef
               To := claimTypeRef }] } } }

/-- Embeds `populateStandardProperties` (src/properties.go:152-323). For each
built-in property: insert its document, append its declared extra `is`
relations through the stored entry, then (nested inside the same loop, as in
the source) re-insert every claim-type marker document. -/
def populateStandardProperties (t : KnownPropertiesTable) : KnownPropertiesTable :=
  builtinProperties.foldl
    (fun t bp =>
      let mnemonic := getMnemonic bp.Name
      let id := getPropertyID mnemonic
      let t := tableInsert t id (builtinPropertyDoc bp mnemonic id)
      let t := bp.Is.foldl
        (fun t isClaim =>
          tableModify t id (appendRelation (extraIsClaim mnemonic (getMnemonic isClaim) isClaim)))
        t
      claimTypes.foldl
        (fun t claimType => tableInsert t (claimTypeDoc claimType).ID (claimTypeDoc claimType))
        t)
    t

/-- The table after the `init()`-time bootstrap: `populateStandardProperties`
run once over the initially empty `KnownProperties` map
(src/properties.go:113, 325-327). -/
def KnownProperties : KnownPropertiesTable :=
  populateStandardProperties []

/-- Embeds `GetStandardPropertyReference` (src/properties.go:116-127): look
the mnemonic's derived identifier up in `KnownProperties` and build a
`DocumentReference` from the document's ID, Name, Score and Scores; a
missing mnemonic panics, modelled as `none`. -/
def GetStandardPropertyReference (mnemonic : String) : Option DocumentReference :=
  match tableGet KnownProperties (getPropertyID mnemonic) with
  | none => none
  | some property => some ⟨property.ID, property.Name, property.Score, property.Scores⟩

/-- The mnemonics registered during bootstrap: those of the stored
documents. -/
def registeredMnemonics : List String :=
  KnownProperties.map (fun e => e.2.Mnemonic)

/-! ## Predicates and concrete inputs used by the claim theorems -/

/-- A bootstrap document is well-formed in the sense of the spec ("Every
built-in property document contains exactly one Text claim (description) and
at least one Relation claim `is → property`"): exactly one Text claim whose
confidence is 1.0 and whose property is the well-known description property,
and some Relation claim `is → property`. -/
def propertyDocOK (d : Document) : Bool :=
  match d.Active with
  | none => false
  | some a =>
    a.Simple.Text.length = 1 &&
    a.Simple.Text.all (fun tc =>
      tc.Core.Confidence = 1 && tc.«Prop».ID = getPropertyID "DESCRIPTION") &&
    a.Simple.Relation.any (fun rc =>
      rc.«Prop».ID = getPropertyID "IS" && rc.To.ID = getPropertyID "PROPERTY")

/-- The document carries a Relation claim `is → "claim type"`. -/
def hasClaimTypeRelation (d : Document) : Bool :=
  match d.Active with
  | none => false
  | some a =>
    a.Simple.Relation.any (fun rc =>
      rc.«Prop».ID = getPropertyID "IS" && rc.To.ID = getPropertyID "CLAIM_TYPE")

/-- Mnemonics of the claim-type marker documents (`"<type>" claim type`). -/
def claimTypeMarkerMnemonics : List String :=
  claimTypes.map (fun ct => getMnemonic ("\"" ++ ct ++ "\" claim type"))

/-- Codecs whose encoders are the identity function, a legitimate
instantiation of the external codec parameters. -/
def trivialCodecs : Codecs := ⟨id, id, id⟩

/-- An 11-character string: not a syntactically valid identifier. -/
def invalidDocumentID : String := "not-an-id"

/-- A 22-character alphanumeric string: a syntactically valid identifier. -/
def validDocumentID : String := "abcdefghijklmnopqrstuv"

/-- A client that accepts only brotli and explicitly refuses everything else
(`Accept-Encoding: br, *;q=0`). -/
def brotliOnlySpecs : List (String × Nat) := [("br", 1000), ("*", 0)]

/-- A client that refuses every encoding (`Accept-Encoding: *;q=0`). -/
def refuseAllSpecs : List (String × Nat) := [("*", 0)]

/-- A client that accepts gzip (`Accept-Encoding: gzip`). -/
def gzipOnlySpecs : List (String × Nat) := [("gzip", 1000)]

/-- A stub backend that always returns a one-byte document. -/
def constES : ESBackend := fun _ _ => .success [65] "application/json" "1"

/-- A stub backend that always returns the three-byte document `[1, 2, 3]`. -/
def smallBodyES : ESBackend := fun _ _ => .success [1, 2, 3] "application/json" "3"

/-- The raw (unencoded) body of a stored document: the single byte `A`. -/
def rawDocumentBody : List Nat := [65]

/-- A gzip encoding of `rawDocumentBody` (RFC 1952 member for the byte `A`,
zero mtime). -/
def gzipDocumentBody : List Nat :=
  [31, 139, 8, 0, 0, 0, 0, 0, 2, 3, 115, 4, 0, 139, 158, 217, 211, 1, 0, 0, 0]

/-- An engine that honors the `Accept-Encoding` header the handler forwards
(src/internal/cli/cli.go:588), as Elasticsearch with HTTP compression does:
asked for gzip it returns the document gzip-encoded, otherwise it returns the
raw document. One stored document, two on-the-wire bodies. -/
def encodingSensitiveES : ESBackend := fun _ acceptEncoding =>
  if acceptEncoding = compressionGzip then
    .success gzipDocumentBody "application/json" (toString gzipDocumentBody.length)
  else .success rawDocumentBody "application/json" (toString rawDocumentBody.length)

/-- A request for `validDocumentID` negotiating gzip
(`Accept-Encoding: gzip`). -/
def gzipRequest : JSONRequest := ⟨[("gzip", 1000)], validDocumentID⟩

/-- A request for `validDocumentID` negotiating identity
(`Accept-Encoding: identity`). -/
def identityRequest : JSONRequest := ⟨[("identity", 1000)], validDocumentID⟩

/-- Metadata mapping key `k` to the single value `"ab"`. -/
def metadataA : List (String × List String) := [("k", ["ab"])]

/-- Metadata mapping key `k` to the two values `"a"` and `"b"`: a different
value for key `k` than `metadataA`, with the same byte concatenation. -/
def metadataB : List (String × List String) := [("k", ["a", "b"])]

/-! ## Helper lemmas -/

/-- The modelled identifier derivation is injective (spec section 8: equality
of derived identifiers is exact-reproducible and distinct inputs are
distinct). -/
theorem getPropertyID_injective : Function.Injective getPropertyID := by
  intro a b h
  unfold getPropertyID at h
  have h2 := congrArg String.data h
  simp only [String.data_append] at h2
  exact String.ext (List.append_cancel_left h2)

/-- A key held by no entry of a table is not found. -/
theorem tableGet_eq_none (t : KnownPropertiesTable) (k : String)
    (h : ∀ e ∈ t, e.1 ≠ k) : tableGet t k = none := by
  induction t with
  | nil => rfl
  | cons e rest ih =>
    simp only [tableGet]
    rw [if_neg (h e (List.mem_cons_self e rest))]
    exact ih (fun x hx => h x (List.mem_cons_of_mem e hx))

/-- Every key of the bootstrap table is the derived identifier of the stored
document's mnemonic. -/
theorem knownProperties_key_eq_mnemonic_id :
    ∀ e ∈ KnownProperties, e.1 = getPropertyID e.2.Mnemonic := by decide

/-- A successful JSON document response carries the SHA-256 ETag of its own
body. -/
theorem documentGetGetJSON_ok_etag (req : JSONRequest) (es : ESBackend)
    (ct : String) (cEnc cLen : Option String) (et : String) (bd : List Nat)
    (h : (DocumentGetGetJSON req es).response = .ok ct cEnc cLen et bd) :
    et = quoteETag (base64urlEncode (sha256Bytes bd)) := by
  by_cases hce : NegotiateContentEncoding req.acceptEncoding
      [compressionGzip, compressionDeflate, compressionIdentity] = ""
  · simp [DocumentGetGetJSON, hce] at h
  · by_cases hval : identifierValid req.id
    · cases hes : es req.id (NegotiateContentEncoding req.acceptEncoding
          [compressionGzip, compressionDeflate, compressionIdentity]) with
      | notFound => simp [DocumentGetGetJSON, hce, hval, hes] at h
      | failure => simp [DocumentGetGetJSON, hce, hval, hes] at h
      | success body bct bcl =>
        simp [DocumentGetGetJSON, hce, hval, hes] at h
        obtain ⟨_, _, _, he, hb⟩ := h
        rw [← he, ← hb]
    · simp [DocumentGetGetJSON, hce, hval] at h

/-- A successful `writeJSON` result carries the ETag computed from its own
encoded body and its metadata. -/
theorem writeJSON_ok_etag (codecs : Codecs) (ce : String) (b : List Nat)
    (md : List (String × List String)) (ct : String) (cEnc cLen : Option String)
    (et : String) (mh : List (String × List String)) (bd : List Nat)
    (h : writeJSON codecs ce b md = .ok ct cEnc cLen et mh bd) :
    et = etagFor bd md := by
  unfold writeJSON at h
  split at h
  · cases hcp : compress codecs compressionIdentity b with
    | error e => simp [hcp] at h
    | ok data =>
      simp [hcp] at h
      obtain ⟨_, _, _, he, _, hb⟩ := h
      rw [← he, ← hb]
  · cases hcp : compress codecs ce b with
    | error e => simp [hcp] at h
    | ok data =>
      simp [hcp] at h
      obtain ⟨_, _, _, he, _, hb⟩ := h
      rw [← he, ← hb]

/-! ## Claim theorems -/

/-- C1, counterexample: with `Accept-Encoding: br, *;q=0` and a valid
identifier, negotiation against the claimed preference list `allCompressions`
(brotli, gzip, deflate, identity) accepts brotli, yet `DocumentGetGetJSON`
responds 406 and never calls the backend — so the JSON handler does not
negotiate against the brotli-headed list. -/
theorem c1_counterexample :
    NegotiateContentEncoding brotliOnlySpecs allCompressions = compressionBrotli ∧
    identifierValid validDocumentID = true ∧
    DocumentGetGetJSON ⟨brotliOnlySpecs, validDocumentID⟩ constES =
      ⟨.notAcceptable, 0⟩ := by
  refine ⟨by decide, by decide, by decide⟩

/-- C1, amended: the JSON document handler negotiates the response content
encoding from the client's `Accept-Encoding` against the ordered preference
list gzip, deflate, identity (no brotli); when the negotiation yields
nothing the handler responds 406 and makes no backend call, and every
successful response's `Content-Encoding` is the negotiated encoding (absent
for identity). -/
theorem c1_json_encoding_negotiation (specs : List (String × Nat)) (id : String)
    (es : ESBackend) :
    (NegotiateContentEncoding specs [compressionGzip, compressionDeflate, compressionIdentity] = "" →
      DocumentGetGetJSON ⟨specs, id⟩ es = ⟨.notAcceptable, 0⟩) ∧
    (∀ ct cEnc cLen et bd,
      (DocumentGetGetJSON ⟨specs, id⟩ es).response = .ok ct cEnc cLen et bd →
      NegotiateContentEncoding specs [compressionGzip, compressionDeflate, compressionIdentity] ≠ "" ∧
      cEnc = (if NegotiateContentEncoding specs [compressionGzip, compressionDeflate, compressionIdentity]
                ≠ compressionIdentity
              then some (NegotiateContentEncoding specs
                [compressionGzip, compressionDeflate, compressionIdentity])
              else none)) := by
  constructor
  · intro h
    simp [DocumentGetGetJSON, h]
  · intro ct cEnc cLen et bd h
    by_cases hce : NegotiateContentEncoding specs
        [compressionGzip, compressionDeflate, compressionIdentity] = ""
    · simp [DocumentGetGetJSON, hce] at h
    · refine ⟨hce, ?_⟩
      by_cases hval : identifierValid id
      · cases hes : es id (NegotiateContentEncoding specs
            [compressionGzip, compressionDeflate, compressionIdentity]) with
        | notFound => simp [DocumentGetGetJSON, hce, hval, hes] at h
        | failure => simp [DocumentGetGetJSON, hce, hval, hes] at h
        | success body bct bcl =>
          simp [DocumentGetGetJSON, hce, hval, hes] at h
          obtain ⟨_, hc, _, _, _⟩ := h
          rw [← hc]
          by_cases hid : NegotiateContentEncoding specs
              [compressionGzip, compressionDeflate, compressionIdentity] = compressionIdentity <;>
            simp [hid]
      · simp [DocumentGetGetJSON, hce, hval] at h

/-- C1, witness: a client refusing every encoding (`Accept-Encoding: *;q=0`)
negotiates nothing against gzip/deflate/identity, and the handler answers
406 with zero backend calls. -/
theorem c1_json_encoding_negotiation_witness :
    DocumentGetGetJSON ⟨refuseAllSpecs, validDocumentID⟩ constES = ⟨.notAcceptable, 0⟩ :=
  (c1_json_encoding_negotiation refuseAllSpecs validDocumentID constES).1 (by decide)

/-- C2, counterexample: the handler forwards the negotiated encoding to the
engine (src/internal/cli/cli.go:588) and hashes whatever bytes come back
(cli.go:605), so against an engine that honors `Accept-Encoding` the same
stored document (raw body `A`) yields two successful responses — one
negotiating gzip and served the gzip-encoded bytes, one negotiating identity
and served the raw bytes — whose ETags differ; the gzip response's ETag is
the digest of the encoded reply, not of the raw (unencoded) document
body. -/
theorem c2_counterexample :
    (DocumentGetGetJSON gzipRequest encodingSensitiveES).response =
      .ok "application/json" (some compressionGzip) none
        (quoteETag (base64urlEncode (sha256Bytes gzipDocumentBody))) gzipDocumentBody ∧
    (DocumentGetGetJSON identityRequest encodingSensitiveES).response =
      .ok "application/json" none (some (toString rawDocumentBody.length))
        (quoteETag (base64urlEncode (sha256Bytes rawDocumentBody))) rawDocumentBody ∧
    quoteETag (base64urlEncode (sha256Bytes gzipDocumentBody)) ≠
      quoteETag (base64urlEncode (sha256Bytes rawDocumentBody)) :=
  ⟨rfl, rfl, by decide⟩

/-- C2, amended: for every successful JSON-branch document request, the ETag
sent to the client is the base64url-encoded SHA-256 digest of the body bytes
exactly as the backend returned them for the forwarded negotiated encoding
and as they are served to the client; two successful requests receive the
same ETag whenever the backend replies with the same body bytes — in
particular whenever its reply does not depend on the forwarded encoding —
but not in general across different negotiated encodings. -/
theorem c2_etag_digest_of_served_body (req : JSONRequest) (es : ESBackend)
    (ct : String) (cEnc cLen : Option String) (et : String) (bd : List Nat)
    (h : (DocumentGetGetJSON req es).response = .ok ct cEnc cLen et bd) :
    et = quoteETag (base64urlEncode (sha256Bytes bd)) ∧
    (∃ cl, es req.id (NegotiateContentEncoding req.acceptEncoding
        [compressionGzip, compressionDeflate, compressionIdentity]) = .success bd ct cl) ∧
    (∀ (req2 : JSONRequest) (es2 : ESBackend) (ct2 : String) (cEnc2 cLen2 : Option String)
      (et2 : String) (bd2 : List Nat),
      (DocumentGetGetJSON req2 es2).response = .ok ct2 cEnc2 cLen2 et2 bd2 →
      bd2 = bd → et2 = et) := by
  refine ⟨documentGetGetJSON_ok_etag req es ct cEnc cLen et bd h, ?_, ?_⟩
  · by_cases hce : NegotiateContentEncoding req.acceptEncoding
        [compressionGzip, compressionDeflate, compressionIdentity] = ""
    · simp [DocumentGetGetJSON, hce] at h
    · by_cases hval : identifierValid req.id
      · cases hes : es req.id (NegotiateContentEncoding req.acceptEncoding
            [compressionGzip, compressionDeflate, compressionIdentity]) with
        | notFound => simp [DocumentGetGetJSON, hce, hval, hes] at h
        | failure => simp [DocumentGetGetJSON, hce, hval, hes] at h
        | success body bct bcl =>
          simp [DocumentGetGetJSON, hce, hval, hes] at h
          obtain ⟨hct, _, _, _, hb⟩ := h
          refine ⟨bcl, ?_⟩
          rw [← hct, ← hb]
      · simp [DocumentGetGetJSON, hce, hval] at h
  · intro req2 es2 ct2 cEnc2 cLen2 et2 bd2 h2 hbd
    rw [documentGetGetJSON_ok_etag req2 es2 ct2 cEnc2 cLen2 et2 bd2 h2, hbd,
      documentGetGetJSON_ok_etag req es ct cEnc cLen et bd h]

/-- C2, witness: a gzip-negotiated request against a stub backend returning
the document `[1, 2, 3]` succeeds, and its ETag is the digest of the served
body. -/
theorem c2_etag_digest_of_served_body_witness :
    ((DocumentGetGetJSON ⟨gzipOnlySpecs, validDocumentID⟩ smallBodyES).response =
      .ok "application/json" (some compressionGzip) none
        (quoteETag (base64urlEncode (sha256Bytes [1, 2, 3]))) [1, 2, 3]) ∧
    quoteETag (base64urlEncode (sha256Bytes [1, 2, 3])) =
      quoteETag (base64urlEncode (sha256Bytes [1, 2, 3])) :=
  ⟨rfl,
   (c2_etag_digest_of_served_body ⟨gzipOnlySpecs, validDocumentID⟩ smallBodyES
     "application/json" (some compressionGzip) none
     (quoteETag (base64urlEncode (sha256Bytes [1, 2, 3]))) [1, 2, 3] rfl).1⟩

/-- C3, counterexample: two `writeJSON` invocations with the same body and
different metadata — the value of key `k` changes from `["ab"]` to
`["a", "b"]` — produce the same ETag, because names and value bytes are
appended into the digest without delimiters. -/
theorem c3_counterexample :
    metadataA ≠ metadataB ∧
    resultEtag (writeJSON trivialCodecs compressionIdentity [] metadataA) =
      resultEtag (writeJSON trivialCodecs compressionIdentity [] metadataB) := by
  refine ⟨by decide, ?_⟩
  have hmb : metadataBytes metadataA = metadataBytes metadataB := by decide
  simp [writeJSON, compress, compressionIdentity, compressionBrotli, compressionGzip,
    compressionDeflate, resultEtag, etagFor, hmb]

/-- C3, amended: the `writeJSON` ETag is a deterministic function of the
served (encoded) body bytes and the ordered metadata key/value pairs — it
equals the digest of the encoded bytes followed by the metadata bytes, so
identical body and metadata always give an identical ETag; changing a
metadata value, however, only changes the ETag when it changes that
delimiter-free byte concatenation. -/
theorem c3_etag_function_of_body_and_metadata (codecs : Codecs) (ce : String)
    (b : List Nat) (md : List (String × List String)) (ct : String)
    (cEnc cLen : Option String) (et : String) (mh : List (String × List String))
    (bd : List Nat) (h : writeJSON codecs ce b md = .ok ct cEnc cLen et mh bd) :
    et = etagFor bd md ∧
    (∀ (codecs2 : Codecs) (ce2 : String) (b2 : List Nat) (ct2 : String)
      (cEnc2 cLen2 : Option String) (et2 : String) (mh2 : List (String × List String))
      (bd2 : List Nat),
      writeJSON codecs2 ce2 b2 md = .ok ct2 cEnc2 cLen2 et2 mh2 bd2 →
      bd2 = bd → et2 = et) := by
  refine ⟨writeJSON_ok_etag codecs ce b md ct cEnc cLen et mh bd h, ?_⟩
  intro codecs2 ce2 b2 ct2 cEnc2 cLen2 et2 mh2 bd2 h2 hbd
  rw [writeJSON_ok_etag codecs2 ce2 b2 md ct2 cEnc2 cLen2 et2 mh2 bd2 h2, hbd,
    writeJSON_ok_etag codecs ce b md ct cEnc cLen et mh bd h]

/-- C3, witness: a small body is served uncompressed and its ETag is the
digest of body plus metadata bytes. -/
theorem c3_etag_function_of_body_and_metadata_witness :
    (writeJSON trivialCodecs compressionGzip [1, 2, 3] [] =
      .ok "application/json" none (some (toString (3 : Nat))) (etagFor [1, 2, 3] []) [] [1, 2, 3]) ∧
    etagFor [1, 2, 3] [] = etagFor [1, 2, 3] [] :=
  ⟨rfl,
   (c3_etag_function_of_body_and_metadata trivialCodecs compressionGzip [1, 2, 3] []
     "application/json" none (some (toString (3 : Nat))) (etagFor [1, 2, 3] []) [] [1, 2, 3]
     rfl).1⟩

/-- C4: the property bootstrap is idempotent — running
`populateStandardProperties` over the table produced by the first run (the
bootstrap-time `KnownProperties`) returns that table unchanged, every key,
document, identifier and claim included. -/
theorem c4_bootstrap_idempotent :
    populateStandardProperties KnownProperties = KnownProperties := by decide

/-- C5: whenever the marshalled payload is at most 1024 bytes, `writeJSON`
serves it with the identity encoding regardless of the requested content
encoding: no `Content-Encoding` header, a `Content-Length` header, and the
body passed through unchanged. -/
theorem c5_small_payload_served_identity (codecs : Codecs) (contentEncoding : String)
    (encoded : List Nat) (metadata : List (String × List String))
    (h : encoded.length ≤ minCompressionSize) :
    writeJSON codecs contentEncoding encoded metadata =
      .ok "application/json" none (some (toString encoded.length))
        (etagFor encoded metadata)
        (metadata.map (fun kv => (canonicalMIMEHeaderKey ("peerdb-" ++ kv.1), kv.2)))
        encoded := by
  simp [writeJSON, h, compress, compressionIdentity, compressionBrotli, compressionGzip,
    compressionDeflate]

/-- C5, witness: a 3-byte payload with gzip requested is served identity. -/
theorem c5_small_payload_served_identity_witness :
    ([1, 2, 3] : List Nat).length ≤ minCompressionSize ∧
    writeJSON trivialCodecs compressionBrotli [1, 2, 3] metadataA =
      .ok "application/json" none (some (toString ([1, 2, 3] : List Nat).length))
        (etagFor [1, 2, 3] metadataA)
        (metadataA.map (fun kv => (canonicalMIMEHeaderKey ("peerdb-" ++ kv.1), kv.2)))
        [1, 2, 3] :=
  ⟨by decide,
   c5_small_payload_served_identity trivialCodecs compressionBrotli [1, 2, 3] metadataA
     (by decide)⟩

/-- C6: a request for a syntactically invalid identifier never produces a
backend call and yields a 400-class response, on both content-type branches:
the JSON handler makes zero backend calls and answers with a 4xx status
(400, or 406 when no encoding was negotiable), and the HTML handler answers
400 with zero backend calls. -/
theorem c6_invalid_id_no_backend_call :
    (∀ (specs : List (String × Nat)) (id : String) (es : ESBackend),
      identifierValid id = false →
      (DocumentGetGetJSON ⟨specs, id⟩ es).backendCalls = 0 ∧
      400 ≤ jsonStatus (DocumentGetGetJSON ⟨specs, id⟩ es).response ∧
      jsonStatus (DocumentGetGetJSON ⟨specs, id⟩ es).response < 500) ∧
    (∀ (id : String) (hasS hasQ : Bool) (getSearchFn : HTMLRequest → Option String)
      (pathFn : String → Option String → Except Unit String)
      (esHead : String → ESHeadResult) (development : Bool),
      identifierValid id = false →
      DocumentGetGetHTML ⟨id, hasS, hasQ⟩ getSearchFn pathFn esHead development =
        (.badRequest, 0)) := by
  constructor
  · intro specs id es hval
    by_cases hce : NegotiateContentEncoding specs
        [compressionGzip, compressionDeflate, compressionIdentity] = ""
    · simp [DocumentGetGetJSON, hce, jsonStatus]
    · simp [DocumentGetGetJSON, hce, hval, jsonStatus]
  · intro id hasS hasQ getSearchFn pathFn esHead development hval
    simp [DocumentGetGetHTML, hval]

/-- C6, witness: `"not-an-id"` is rejected by both handlers with zero
backend calls. -/
theorem c6_invalid_id_no_backend_call_witness :
    ((DocumentGetGetJSON ⟨gzipOnlySpecs, invalidDocumentID⟩ constES).backendCalls = 0 ∧
      400 ≤ jsonStatus (DocumentGetGetJSON ⟨gzipOnlySpecs, invalidDocumentID⟩ constES).response ∧
      jsonStatus (DocumentGetGetJSON ⟨gzipOnlySpecs, invalidDocumentID⟩ constES).response < 500) ∧
    DocumentGetGetHTML ⟨invalidDocumentID, false, false⟩ (fun _ => none)
      (fun _ _ => .ok "") (fun _ => .ok) false = (.badRequest, 0) :=
  ⟨(c6_invalid_id_no_backend_call.1 gzipOnlySpecs invalidDocumentID constES (by decide)),
   (c6_invalid_id_no_backend_call.2 invalidDocumentID false false (fun _ => none)
     (fun _ _ => .ok "") (fun _ => .ok) false (by decide))⟩

/-- C7: every document in the bootstrapped `KnownProperties` table holds
exactly one Text claim — its description, confidence 1.0, property
"description" — and at least one Relation claim `is → property`; and every
claim-type marker document additionally holds a Relation claim
`is → "claim type"`. -/
theorem c7_bootstrap_claim_structure :
    KnownProperties.all (fun e =>
      propertyDocOK e.2 &&
      (!(claimTypeMarkerMnemonics.contains e.2.Mnemonic) || hasClaimTypeRelation e.2)) = true := by
  decide

/-- C8: `GetStandardPropertyReference` succeeds for every mnemonic
registered during bootstrap, building the reference from the stored
document's ID, Name, Score and Scores, and fails fast (the modelled panic,
`none`) for every mnemonic that was not registered. -/
theorem c8_lookup_contract :
    (∀ m ∈ registeredMnemonics, (GetStandardPropertyReference m).isSome = true) ∧
    (∀ m, m ∉ registeredMnemonics → GetStandardPropertyReference m = none) ∧
    (∀ (m : String) (d : Document), tableGet KnownProperties (getPropertyID m) = some d →
      GetStandardPropertyReference m = some ⟨d.ID, d.Name, d.Score, d.Scores⟩) := by
  refine ⟨by decide, ?_, ?_⟩
  · intro m hm
    have hnone : tableGet KnownProperties (getPropertyID m) = none := by
      apply tableGet_eq_none
      intro e he hek
      have h1 := knownProperties_key_eq_mnemonic_id e he
      rw [h1] at hek
      have h2 := getPropertyID_injective hek
      exact hm (h2 ▸ List.mem_map_of_mem (fun x => x.2.Mnemonic) he)
    unfold GetStandardPropertyReference
    rw [hnone]
  · intro m d h
    unfold GetStandardPropertyReference
    rw [h]

/-- C8, witness: the registered mnemonic `IS` resolves, the unregistered
mnemonic `NO_SUCH_PROPERTY` fails fast. -/
theorem c8_lookup_contract_witness :
    (GetStandardPropertyReference "IS").isSome = true ∧
    GetStandardPropertyReference "NO_SUCH_PROPERTY" = none :=
  ⟨c8_lookup_contract.1 "IS" (by decide),
   c8_lookup_contract.2.1 "NO_SUCH_PROPERTY" (by decide)⟩

/-- C9: a failed certificate reload leaves the stored certificate unchanged
— the certificate field is assigned only after a successful load — so after
a successful load followed by a failing reload, `GetCertificate` still
returns the certificate published by the successful load. -/
theorem c9_failed_reload_keeps_certificate (Cert : Type) (stored : Option Cert)
    (c1 : Cert) (msg msg2 : String) :
    (reloadCertificate (Except.error msg2) stored).1 = stored ∧
    GetCertificate ((reloadCertificate (Except.error msg)
      ((reloadCertificate (Except.ok c1) stored).1)).1) = some c1 := by
  simp [reloadCertificate, GetCertificate]

/-- C10: in the JSON document handler, content-encoding negotiation runs
before identifier validation — a request whose `Accept-Encoding` rules out
every supported encoding gets 406 whatever its identifier, and a 400 is
produced only when an encoding was negotiable (and the identifier is
invalid). -/
theorem c10_negotiation_before_validation (specs : List (String × Nat)) (id : String)
    (es : ESBackend) :
    (NegotiateContentEncoding specs [compressionGzip, compressionDeflate, compressionIdentity] = "" →
      (DocumentGetGetJSON ⟨specs, id⟩ es).response = .notAcceptable) ∧
    ((DocumentGetGetJSON ⟨specs, id⟩ es).response = .badRequest →
      NegotiateContentEncoding specs [compressionGzip, compressionDeflate, compressionIdentity] ≠ "" ∧
      identifierValid id = false) := by
  constructor
  · intro h
    simp [DocumentGetGetJSON, h]
  · intro h
    by_cases hce : NegotiateContentEncoding specs
        [compressionGzip, compressionDeflate, compressionIdentity] = ""
    · simp [DocumentGetGetJSON, hce] at h
    · refine ⟨hce, ?_⟩
      by_cases hval : identifierValid id
      · cases hes : es id (NegotiateContentEncoding specs
            [compressionGzip, compressionDeflate, compressionIdentity]) with
        | notFound => simp [DocumentGetGetJSON, hce, hval, hes] at h
        | failure => simp [DocumentGetGetJSON, hce, hval, hes] at h
        | success body bct bcl => simp [DocumentGetGetJSON, hce, hval, hes] at h
      · simp [hval]

/-- C10, witness: `Accept-Encoding: *;q=0` with a syntactically invalid
identifier still yields 406, not 400. -/
theorem c10_negotiation_before_validation_witness :
    identifierValid invalidDocumentID = false ∧
    (DocumentGetGetJSON ⟨refuseAllSpecs, invalidDocumentID⟩ constES).response =
      .notAcceptable :=
  ⟨by decide,
   (c10_negotiation_before_validation refuseAllSpecs invalidDocumentID constES).1 (by decide)⟩

end PeerDB
